import Mathlib

/-!
Verification of the mongodb-s3-backup repository: shallow embedding of the
backup, restore and retention-cleanup logic of index.ts and restore.ts,
with theorems settling the behavioural claims about them.

Conventions of the embedding:
* times are milliseconds since the Unix epoch (Int), as in JS Date.getTime;
* interactions with the external collaborators (the S3 client and the
  MongoDB driver) are passed in as outcome functions, so a theorem
  quantifies over every possible behaviour of the collaborator;
* a JS throw is an Except.error; a try/catch that only logs turns the
  error into recorded trace data.
-/

namespace MongoBackup

/-- An entry of the object-storage listing (the Contents array of an S3
ListObjectsV2 response); the SDK declares both fields optional.
Last-modified time is milliseconds since the Unix epoch. -/
structure S3Object where
  key : Option String
  lastModified : Option Int
  deriving DecidableEq, Repr

/-- Model of JavaScript parseInt(s, 10): skip leading whitespace, read an
optional sign and then the longest digit prefix; the result is NaN
(modelled as none) when no digit is found. -/
def jsParseInt (s : String) : Option Int :=
  let cs := s.toList.dropWhile (fun c => c = ' ' ∨ c = '\t' ∨ c = '\n' ∨ c = '\r')
  let signed : Int × List Char :=
    match cs with
    | '-' :: r => (-1, r)
    | '+' :: r => (1, r)
    | r => (1, r)
  let digits := signed.2.takeWhile Char.isDigit
  if digits.isEmpty then none
  else some (signed.1 * (digits.foldl (fun acc c => acc * 10 + (c.toNat - 48)) 0 : Nat))

/-- Observable behaviour of one run of deleteOldBackups: whether the listing
request was issued, the keys a DeleteObjectCommand was sent for, the keys
whose deletion succeeded, and the error absorbed by the surrounding
try/catch (none when nothing was thrown). -/
structure CleanupTrace where
  listed : Bool
  attemptedDeletes : List String
  deletedKeys : List String
  caughtError : Option String
  deriving DecidableEq, Repr

/-- The trace of a run that returns before issuing the listing request
(no retention period, or an invalid one). -/
def cleanupSkipped : CleanupTrace :=
  { listed := false, attemptedDeletes := [], deletedKeys := [], caughtError := none }

/-- The deletion loop of deleteOldBackups: for each listed object that has a
key, send a DeleteObjectCommand. A rejected send throws; in the source the
throw escapes the for-loop to the catch of the single enclosing try block,
so the remaining objects of the list are not attempted. -/
def deleteLoop (send : String → Except String Unit) :
    List S3Object → CleanupTrace
  | [] =>
    { listed := true, attemptedDeletes := [], deletedKeys := [], caughtError := none }
  | obj :: rest =>
    match obj.key with
    | none => deleteLoop send rest
    | some k =>
      match send k with
      | .ok _ =>
        let t := deleteLoop send rest
        { t with
          attemptedDeletes := k :: t.attemptedDeletes,
          deletedKeys := k :: t.deletedKeys }
      | .error e =>
        { listed := true, attemptedDeletes := [k], deletedKeys := [],
          caughtError := some e }

/-- The eligibility test of the cleanup filter: an object with no
last-modified time is kept, one with a last-modified time strictly before
the cutoff is deleted. -/
def isExpired (cutoff : Int) (o : S3Object) : Bool :=
  match o.lastModified with
  | none => false
  | some t => t < cutoff

/-- Milliseconds in one day; the cutoff computation
cutoffDate.setDate(cutoffDate.getDate() - retentionDays) subtracts that many
whole calendar days, modelled as a fixed-length day in epoch time. -/
def msPerDay : Int := 86400000

/-- Model of deleteOldBackups (index.ts). retentionEnv is the RETENTION_DAYS
environment value (none when unset; the source guard !RETENTION_DAYS is also
taken for the empty string). now is the current epoch time. listOutcome is
the result of the ListObjectsV2 request, whose Contents field may be absent;
send gives the result of each DeleteObjectCommand. Everything from the
listing request on runs inside one try block whose catch only logs the
error. -/
def deleteOldBackups (retentionEnv : Option String) (now : Int)
    (listOutcome : Except String (Option (List S3Object)))
    (send : String → Except String Unit) : CleanupTrace :=
  match retentionEnv with
  | none => cleanupSkipped
  | some r =>
    if r = "" then cleanupSkipped
    else
      match jsParseInt r with
      | none => cleanupSkipped
      | some d =>
        if d ≤ 0 then cleanupSkipped
        else
          let cutoff := now - d * msPerDay
          match listOutcome with
          | .error e =>
            { listed := true, attemptedDeletes := [], deletedKeys := [],
              caughtError := some e }
          | .ok none =>
            { listed := true, attemptedDeletes := [], deletedKeys := [],
              caughtError := none }
          | .ok (some contents) =>
            let objectsToDelete := contents.filter (isExpired cutoff)
            deleteLoop send objectsToDelete

/-- Outcome of one run of createMongoDBBackup (index.ts). -/
inductive BackupResult where
  | success (s3Key : String) (cleanup : CleanupTrace)
  | failure (e : String)
  deriving Repr

/-- Model of createMongoDBBackup (index.ts): run mongodump into a temporary
file, upload the archive to S3, remove the temporary file, then run
retention cleanup; a throw up to and including the unlink is caught,
reported and rethrown as a failed backup. The retention-cleanup step
returns a trace and cannot throw. -/
def createMongoDBBackup (s3Key : String)
    (dumpOutcome : Except String Unit) (uploadOutcome : Except String Unit)
    (unlinkOutcome : Except String Unit)
    (retentionEnv : Option String) (now : Int)
    (listOutcome : Except String (Option (List S3Object)))
    (send : String → Except String Unit) : BackupResult :=
  match dumpOutcome with
  | .error e => .failure e
  | .ok _ =>
    match uploadOutcome with
    | .error e => .failure e
    | .ok _ =>
      match unlinkOutcome with
      | .error e => .failure e
      | .ok _ =>
        .success s3Key (deleteOldBackups retentionEnv now listOutcome send)

/-! ## The document data model and the archive codec

The backup variant of createMongoDBBackup (restore.ts, second program)
serializes the assembled backup object with JSON.stringify and gzips the
text; decompressBackup gunzips and parses the text with EJSON.parse. The
gzip layer and the JSON text layer are inverse bijections, so fidelity of
the round trip is decided on the JSON tree. -/

/-- A plain JSON tree. Number payloads are modelled at integer points,
which the values used in this development stay on exactly. -/
inductive Json where
  | null : Json
  | bool : Bool → Json
  | num : Int → Json
  | str : String → Json
  | arr : List Json → Json
  | obj : List (String × Json) → Json
  deriving Repr

/-- A value as held in a document returned by the MongoDB Node driver:
plain JS values plus the BSON wrapper types. num is a plain JS number (a
double, modelled at integer points); int64 is a bson Long; decimal is a
bson Decimal128 (kept as its digit string); date is a JS Date in epoch
milliseconds; binary and uuid carry their payload bytes; objectId carries
its 24-character hex string. -/
inductive BsonValue where
  | nullV : BsonValue
  | boolV : Bool → BsonValue
  | num : Int → BsonValue
  | int64 : Int → BsonValue
  | decimal : String → BsonValue
  | str : String → BsonValue
  | date : Int → BsonValue
  | binary : List Nat → BsonValue
  | uuid : List Nat → BsonValue
  | objectId : String → BsonValue
  | arr : List BsonValue → BsonValue
  | doc : List (String × BsonValue) → BsonValue
  deriving Repr

/-- Two-digit zero-padded decimal. -/
def pad2 (n : Nat) : String :=
  if n < 10 then "0" ++ toString n else toString n

/-- Three-digit zero-padded decimal. -/
def pad3 (n : Nat) : String :=
  if n < 10 then "00" ++ toString n
  else if n < 100 then "0" ++ toString n
  else toString n

/-- Four-digit zero-padded decimal. -/
def pad4 (n : Nat) : String :=
  if n < 10 then "000" ++ toString n
  else if n < 100 then "00" ++ toString n
  else if n < 1000 then "0" ++ toString n
  else toString n

/-- Proleptic Gregorian date (year, month, day) of a day count relative to
1970-01-01, as used by JS Date (civil-from-days algorithm). -/
def civilFromDays (z0 : Int) : Int × Nat × Nat :=
  let z := z0 + 719468
  let era := z.ediv 146097
  let doe := z - era * 146097
  let yoe := (doe - doe.ediv 1460 + doe.ediv 36524 - doe.ediv 146096).ediv 365
  let y := yoe + era * 400
  let doy := doe - (365 * yoe + yoe.ediv 4 - yoe.ediv 100)
  let mp := (5 * doy + 2).ediv 153
  let d := doy - (153 * mp + 2).ediv 5 + 1
  let m := mp + (if mp < 10 then 3 else -9)
  (y + (if m ≤ 2 then 1 else 0), m.toNat, d.toNat)

/-- Model of Date.prototype.toISOString (for years 0 to 9999, the range the
real method renders with four digits). -/
def isoOfEpochMs (ms : Int) : String :=
  let days := ms.ediv 86400000
  let msOfDay := (ms.emod 86400000).toNat
  let ymd := civilFromDays days
  let hh := msOfDay / 3600000
  let mi := msOfDay % 3600000 / 60000
  let ss := msOfDay % 60000 / 1000
  let mmm := msOfDay % 1000
  pad4 ymd.1.toNat ++ "-" ++ pad2 ymd.2.1 ++ "-" ++ pad2 ymd.2.2 ++ "T" ++
    pad2 hh ++ ":" ++ pad2 mi ++ ":" ++ pad2 ss ++ "." ++ pad3 mmm ++ "Z"

/-- The base64 alphabet. -/
def base64Char (n : Nat) : Char :=
  "ABCDEFGHIJKLMNOPQRSTUVWXYZabcdefghijklmnopqrstuvwxyz0123456789+/".toList.getD n 'A'

/-- Standard base64 of a byte list (model of the bson Binary toJSON
payload rendering). -/
def base64Encode : List Nat → String
  | [] => ""
  | [a] => String.mk [base64Char (a / 4), base64Char (a % 4 * 16)] ++ "=="
  | [a, b] =>
    String.mk [base64Char (a / 4), base64Char (a % 4 * 16 + b / 16),
      base64Char (b % 16 * 4)] ++ "="
  | a :: b :: c :: rest =>
    String.mk [base64Char (a / 4), base64Char (a % 4 * 16 + b / 16),
      base64Char (b % 16 * 4 + c / 64), base64Char (c % 64)] ++ base64Encode rest

/-- Signed 32-bit reinterpretation of a value already reduced mod 2^32. -/
def toSigned32 (x : Int) : Int :=
  if 2147483648 ≤ x then x - 4294967296 else x

mutual
/-- Model of JSON.stringify applied to a driver-returned document value
(produced as a JSON tree; the text rendering is injective on the tree).
Per the JS language spec and the bson library: a Date serializes through
toJSON to its ISO string; ObjectId.toJSON is the hex string; Binary.toJSON
is the base64 of the payload, and UUID inherits it; Decimal128.toJSON is an
object with a single $numberDecimal field; Long defines no toJSON, so its
own enumerable fields low, high and unsigned are serialized. -/
def jsonStringifyValue : BsonValue → Json
  | .nullV => .null
  | .boolV b => .bool b
  | .num n => .num n
  | .int64 n =>
    .obj [("low", .num (toSigned32 (n.emod 4294967296))),
      ("high", .num (toSigned32 ((n.ediv 4294967296).emod 4294967296))),
      ("unsigned", .bool false)]
  | .decimal s => .obj [("$numberDecimal", .str s)]
  | .str s => .str s
  | .date ms => .str (isoOfEpochMs ms)
  | .binary bs => .str (base64Encode bs)
  | .uuid bs => .str (base64Encode bs)
  | .objectId hex => .str hex
  | .arr xs => .arr (jsonStringifyList xs)
  | .doc fs => .obj (jsonStringifyFields fs)

/-- JSON.stringify over the elements of an array. -/
def jsonStringifyList : List BsonValue → List Json
  | [] => []
  | x :: xs => jsonStringifyValue x :: jsonStringifyList xs

/-- JSON.stringify over the fields of an object. -/
def jsonStringifyFields : List (String × BsonValue) → List (String × Json)
  | [] => []
  | (k, v) :: fs => (k, jsonStringifyValue v) :: jsonStringifyFields fs
end

mutual
/-- Model of EJSON.parse (bson library, default options) on a JSON tree:
an object that consists exactly of a canonical extended-JSON tag is revived
into the corresponding BSON value; every other object is a plain document,
a plain string stays a string, and a plain number is a JS number. In the
default relaxed mode a $numberLong tag also yields a plain JS number. The
$binary, $uuid and ISO-form $date tags also exist in extended JSON but are
never produced by this program, so they are not modelled; those objects
fall through to the plain-document case. -/
def ejsonParseValue : Json → BsonValue
  | .null => .nullV
  | .bool b => .boolV b
  | .num n => .num n
  | .str s => .str s
  | .arr xs => .arr (ejsonParseList xs)
  | .obj [("$numberLong", .str s)] => .num ((jsParseInt s).getD 0)
  | .obj [("$numberDecimal", .str s)] => .decimal s
  | .obj [("$date", .obj [("$numberLong", .str s)])] => .date ((jsParseInt s).getD 0)
  | .obj [("$oid", .str s)] => .objectId s
  | .obj fs => .doc (ejsonParseFields fs)

/-- EJSON.parse over the elements of an array. -/
def ejsonParseList : List Json → List BsonValue
  | [] => []
  | x :: xs => ejsonParseValue x :: ejsonParseList xs

/-- EJSON.parse over the fields of a plain object. -/
def ejsonParseFields : List (String × Json) → List (String × BsonValue)
  | [] => []
  | (k, v) :: fs => (k, ejsonParseValue v) :: ejsonParseFields fs
end

/-- An index definition as captured from listIndexes and consumed by the
restore loop, which reads the fields name, v, ns and key and passes every
remaining field through as an option. The key specification is passed
through opaquely. -/
structure IndexDef where
  name : String
  v : Option Int
  ns : Option String
  key : BsonValue
  options : List (String × BsonValue)
  deriving Repr

/-- A collection inside the backup object: the captured documents and the
captured index definitions. The restore side checks both fields for
presence at runtime, hence the Option. The producer always fills both. -/
structure CollectionSnapshot where
  documents : Option (List BsonValue)
  indexes : Option (List IndexDef)
  deriving Repr

/-- A database inside the backup object: its collections in insertion
order (Object.entries order). -/
structure DatabaseSnapshot where
  collections : List (String × CollectionSnapshot)
  deriving Repr

/-- The whole backup object (the BackupData TS interface): databases in
insertion order plus the capture timestamp string. -/
structure BackupData where
  databases : List (String × DatabaseSnapshot)
  timestamp : String
  deriving Repr

/-- JSON.stringify of one captured index definition; listIndexes documents
carry their fields in the order v, key, name, ns, then further options. -/
def serializeIndexDef (i : IndexDef) : Json :=
  .obj ((match i.v with | some n => [("v", Json.num n)] | none => [])
    ++ [("key", jsonStringifyValue i.key), ("name", Json.str i.name)]
    ++ (match i.ns with | some s => [("ns", Json.str s)] | none => [])
    ++ jsonStringifyFields i.options)

/-- JSON.stringify of one collection entry of the backup object; a field
whose value is undefined is omitted by JSON.stringify. -/
def serializeCollection (c : CollectionSnapshot) : Json :=
  .obj ((match c.documents with
      | some ds => [("documents", Json.arr (jsonStringifyList ds))]
      | none => [])
    ++ (match c.indexes with
      | some ixs => [("indexes", Json.arr (ixs.map serializeIndexDef))]
      | none => []))

/-- Model of the serialization step of the backup variant of
createMongoDBBackup (restore.ts): backupJson = JSON.stringify(backup), as a
JSON tree. The backup object literal lists databases before timestamp. -/
def serializeBackup (b : BackupData) : Json :=
  .obj [("databases", .obj (b.databases.map (fun p => (p.1,
      Json.obj [("collections",
        Json.obj (p.2.collections.map (fun q => (q.1, serializeCollection q.2))))])))),
    ("timestamp", .str b.timestamp)]

/-- First field of a parsed document with the given name, as JS property
lookup on the object built by EJSON.parse. -/
def bvLookup (k : String) (fs : List (String × BsonValue)) : Option BsonValue :=
  (fs.find? (fun p => p.1 == k)).map (fun p => p.2)

/-- Traverse a list under Option, failing when any element fails. -/
def optTraverse (f : α → Option β) : List α → Option (List β)
  | [] => some []
  | x :: xs =>
    match f x, optTraverse f xs with
    | some y, some ys => some (y :: ys)
    | _, _ => none

/-- Read one index definition out of the parsed tree, the way the restore
loop accesses it: name and key are required by use, v and ns are removed
if present, and every remaining field is an option. -/
def decodeIndexDef : BsonValue → Option IndexDef
  | .doc fs =>
    match bvLookup "name" fs, bvLookup "key" fs with
    | some (.str n), some k =>
      some
        { name := n,
          v := (match bvLookup "v" fs with | some (.num x) => some x | _ => none),
          ns := (match bvLookup "ns" fs with | some (.str s) => some s | _ => none),
          key := k,
          options := fs.filter (fun p =>
            p.1 != "name" && p.1 != "key" && p.1 != "v" && p.1 != "ns") }
    | _, _ => none
  | _ => none

/-- Read one collection entry out of the parsed tree; absent or ill-typed
fields become none, matching the runtime presence checks of the restore
loop. -/
def decodeCollection : BsonValue → Option CollectionSnapshot
  | .doc fs =>
    let docs := match bvLookup "documents" fs with
      | some (.arr ds) => some ds
      | _ => none
    let idxs := match bvLookup "indexes" fs with
      | some (.arr xs) => optTraverse decodeIndexDef xs
      | _ => none
    some { documents := docs, indexes := idxs }
  | _ => none

/-- Read one database entry out of the parsed tree. -/
def decodeDatabase : BsonValue → Option DatabaseSnapshot
  | .doc fs =>
    match bvLookup "collections" fs with
    | some (.doc cs) =>
      (optTraverse (fun p =>
        (decodeCollection p.2).map (fun c => (p.1, c))) cs).map
        (fun l => { collections := l })
    | _ => none
  | _ => none

/-- Model of decompressBackup (restore.ts) past the gunzip and JSON text
layers: EJSON.parse of the archive tree, read back as BackupData. The TS
source performs the read as an unchecked cast; shapes that do not fit the
interface are none here and fail on first access there. -/
def decompressBackup (j : Json) : Option BackupData :=
  match ejsonParseValue j with
  | .doc fs =>
    match bvLookup "databases" fs, bvLookup "timestamp" fs with
    | some (.doc dbs), some (.str ts) =>
      (optTraverse (fun p => (decodeDatabase p.2).map (fun d => (p.1, d))) dbs).map
        (fun l => { databases := l, timestamp := ts })
    | _, _ => none
  | _ => none

mutual
/-- Number of date values in a document value (observer used to separate
snapshots that differ in the extended type of a value). -/
def dateCount : BsonValue → Nat
  | .date _ => 1
  | .arr xs => dateCountList xs
  | .doc fs => dateCountFields fs
  | _ => 0

/-- Number of date values under the elements of an array. -/
def dateCountList : List BsonValue → Nat
  | [] => 0
  | x :: xs => dateCount x + dateCountList xs

/-- Number of date values under the fields of a document. -/
def dateCountFields : List (String × BsonValue) → Nat
  | [] => 0
  | (_, v) :: fs => dateCount v + dateCountFields fs
end

/-- Number of date values in the captured documents of a backup. -/
def dateCountBackup (b : BackupData) : Nat :=
  (b.databases.map (fun p =>
    (p.2.collections.map (fun q =>
      match q.2.documents with
      | some ds => dateCountList ds
      | none => 0)).sum)).sum

/-- A snapshot of one database with one collection holding a single
document that carries an identifier value and a timestamp value. -/
def c1Doc : BsonValue :=
  .doc [("_id", .objectId "507f1f77bcf86cd799439011"), ("createdAt", .date 1700000000000)]

/-- A valid one-collection snapshot containing c1Doc. -/
def c1Snapshot : BackupData :=
  { databases := [("app",
      { collections := [("events",
          { documents := some [c1Doc], indexes := some [] })] })],
    timestamp := "2023-11-14T22:13:20.000Z" }

/-- What the round trip actually returns for c1Snapshot: the identifier and
the timestamp degrade to their plain string renderings. -/
def c1Degraded : BackupData :=
  { databases := [("app",
      { collections := [("events",
          { documents := some [BsonValue.doc
              [("_id", .str "507f1f77bcf86cd799439011"),
               ("createdAt", .str "2023-11-14T22:13:20.000Z")]],
            indexes := some [] })] })],
    timestamp := "2023-11-14T22:13:20.000Z" }

/-! ## The restorer (restoreToMongoDB) -/

/-- The error object thrown by a MongoDB driver call: numeric code, code
name, message, and for a bulk-write error the insertedCount of its result
field (absent when the driver supplies no result). -/
structure MongoError where
  code : Int
  codeName : String
  message : String
  resultInsertedCount : Option Nat
  deriving Repr

/-- One observable action or report of the restore run, in source log
order. -/
inductive RestoreEvent where
  | skippedDatabase (dbName : String)
  | restoringDatabase (dbName : String)
  | droppedCollection (collName : String)
  | dropWarning (collName : String) (message : String)
  | bulkInsertIssued (collName : String) (docCount : Nat)
  | insertedAll (collName : String) (count : Nat)
  | insertedPartial (collName : String) (inserted : Nat) (duplicatesSkipped : Nat)
  | indexCreateIssued (collName : String) (key : BsonValue)
      (options : List (String × BsonValue))
  | indexCreated (indexName : String)
  | indexAlreadyExists (indexName : String)
  | indexWarning (indexName : String) (message : String)
  deriving Repr

/-- The createIndex arguments built from a captured index definition:
indexSpec is a copy of the index with its v and ns fields deleted, and is
then destructured into the key and the remaining options, so the name
stays inside the options. -/
def indexCreateArgs (i : IndexDef) : BsonValue × List (String × BsonValue) :=
  (i.key, ("name", BsonValue.str i.name) :: i.options)

/-- The index-restoration loop of restoreToMongoDB: the _id_ index is
skipped; every other captured index is created, and a creation failure is
absorbed — codes 85 and 86 are logged as the index already existing,
everything else as a warning. Nothing is rethrown. -/
def restoreIndexes (collName : String)
    (createIndex : BsonValue → List (String × BsonValue) → Except MongoError Unit) :
    List IndexDef → List RestoreEvent
  | [] => []
  | i :: rest =>
    if i.name = "_id_" then restoreIndexes collName createIndex rest
    else
      let args := indexCreateArgs i
      let ev :=
        match createIndex args.1 args.2 with
        | .ok _ => [RestoreEvent.indexCreateIssued collName args.1 args.2,
            .indexCreated i.name]
        | .error e =>
          if e.code = 85 ∨ e.code = 86 then
            [RestoreEvent.indexCreateIssued collName args.1 args.2,
              .indexAlreadyExists i.name]
          else
            [RestoreEvent.indexCreateIssued collName args.1 args.2,
              .indexWarning i.name e.message]
      ev ++ restoreIndexes collName createIndex rest

/-- The optional drop at the head of the per-collection body of
restoreToMongoDB: with dropExisting the collection is dropped, a
NamespaceNotFound failure is ignored (the collection did not exist) and
any other drop failure is only a warning. -/
def dropStep (collName : String) (dropExisting : Bool)
    (dropOutcome : Except MongoError Unit) : List RestoreEvent :=
  if dropExisting then
    match dropOutcome with
    | .ok _ => [.droppedCollection collName]
    | .error e =>
      if e.codeName = "NamespaceNotFound" then []
      else [.dropWarning collName e.message]
  else []

/-- The document-insert step of the per-collection body of restoreToMongoDB:
when captured documents are present and nonempty, one unordered insertMany
is issued; a duplicate-key failure (code 11000) is absorbed and reported
with the count actually inserted (insertedCount of the result, 0 when the
driver supplies none) next to the count of skipped duplicates; any other
insert failure is rethrown. -/
def insertStep (collName : String) (documents : Option (List BsonValue))
    (insertOutcome : Except MongoError Unit) : Except MongoError (List RestoreEvent) :=
  match documents with
  | none => .ok []
  | some docs =>
    if docs.length > 0 then
      match insertOutcome with
      | .ok _ => .ok [.bulkInsertIssued collName docs.length,
          .insertedAll collName docs.length]
      | .error e =>
        if e.code = 11000 then
          .ok [.bulkInsertIssued collName docs.length,
            .insertedPartial collName (e.resultInsertedCount.getD 0)
              (docs.length - e.resultInsertedCount.getD 0)]
        else .error e
    else .ok []

/-- The index-recreation step of the per-collection body of
restoreToMongoDB: runs when captured indexes are present and nonempty. -/
def indexStep (collName : String) (indexes : Option (List IndexDef))
    (createIndex : BsonValue → List (String × BsonValue) → Except MongoError Unit) :
    List RestoreEvent :=
  match indexes with
  | none => []
  | some idxs =>
    if idxs.length > 0 then restoreIndexes collName createIndex idxs else []

/-- The per-collection body of restoreToMongoDB: optional drop, document
insertion, then index recreation; only a rethrown insert failure aborts. -/
def restoreCollection (collName : String) (collData : CollectionSnapshot)
    (dropExisting : Bool) (dropOutcome : Except MongoError Unit)
    (insertOutcome : Except MongoError Unit)
    (createIndex : BsonValue → List (String × BsonValue) → Except MongoError Unit) :
    Except MongoError (List RestoreEvent) :=
  match insertStep collName collData.documents insertOutcome with
  | .error e => .error e
  | .ok insEvents =>
    .ok (dropStep collName dropExisting dropOutcome ++ insEvents ++
      indexStep collName collData.indexes createIndex)

/-- The collection loop of restoreToMongoDB for one database; a rethrown
insert failure aborts the remaining collections. The driver-call outcomes
are supplied per collection name. -/
def restoreCollections (dropExisting : Bool)
    (dropOutcome : String → Except MongoError Unit)
    (insertOutcome : String → Except MongoError Unit)
    (createIndex : String → BsonValue → List (String × BsonValue) → Except MongoError Unit) :
    List (String × CollectionSnapshot) → Except MongoError (List RestoreEvent)
  | [] => .ok []
  | (collName, collData) :: rest =>
    match restoreCollection collName collData dropExisting (dropOutcome collName)
        (insertOutcome collName) (createIndex collName) with
    | .error e => .error e
    | .ok evs =>
      match restoreCollections dropExisting dropOutcome insertOutcome createIndex rest with
      | .error e => .error e
      | .ok evs2 => .ok (evs ++ evs2)

/-- The database loop of restoreToMongoDB: a database is skipped when the
connection URI names a database (specificDatabase, the URI path with its
leading slash removed; the source tests it twice, for truthiness and
against the empty string, which coincide) and the entry has another name.
The driver-call outcomes are supplied per database and collection name. -/
def restoreDatabases (dropExisting : Bool) (specificDatabase : String)
    (dropOutcome : String → String → Except MongoError Unit)
    (insertOutcome : String → String → Except MongoError Unit)
    (createIndex : String → String → BsonValue → List (String × BsonValue) → Except MongoError Unit) :
    List (String × DatabaseSnapshot) → Except MongoError (List RestoreEvent)
  | [] => .ok []
  | (dbName, dbData) :: rest =>
    if specificDatabase ≠ "" ∧ dbName ≠ specificDatabase then
      match restoreDatabases dropExisting specificDatabase dropOutcome insertOutcome
          createIndex rest with
      | .error e => .error e
      | .ok evs => .ok (RestoreEvent.skippedDatabase dbName :: evs)
    else
      match restoreCollections dropExisting (dropOutcome dbName) (insertOutcome dbName)
          (createIndex dbName) dbData.collections with
      | .error e => .error e
      | .ok evs =>
        match restoreDatabases dropExisting specificDatabase dropOutcome insertOutcome
            createIndex rest with
        | .error e => .error e
        | .ok evs2 => .ok (RestoreEvent.restoringDatabase dbName :: evs ++ evs2)

/-- Model of restoreToMongoDB (restore.ts): walk the databases of the
decoded backup under the scope rule of the connection URI. -/
def restoreToMongoDB (backup : BackupData) (dropExisting : Bool)
    (specificDatabase : String)
    (dropOutcome : String → String → Except MongoError Unit)
    (insertOutcome : String → String → Except MongoError Unit)
    (createIndex : String → String → BsonValue → List (String × BsonValue) → Except MongoError Unit) :
    Except MongoError (List RestoreEvent) :=
  restoreDatabases dropExisting specificDatabase dropOutcome insertOutcome createIndex
    backup.databases

/-- Model of the database-selection step of the backup variant of
createMongoDBBackup (restore.ts): with a database named in the connection
URI only that database is backed up; otherwise every database reported by
listDatabases except admin, local and config. -/
def databasesToBackup (specificDatabase : String) (listedDatabases : List String) :
    List String :=
  if specificDatabase ≠ "" then [specificDatabase]
  else listedDatabases.filter (fun n => !(["admin", "local", "config"].contains n))

/-- Semantics of the unordered insertMany call of the driver against a
collection holding the primary keys in existing: every document whose key
is not yet present (in the collection or earlier in the batch) is
inserted, colliding ones are skipped, and the call rejects with a
duplicate-key error (code 11000) whose result carries the count actually
inserted whenever at least one document collided. -/
def bulkInsertUnordered (existing : List Int) (docKeys : List Int) :
    List Int × Except MongoError Unit :=
  let final := docKeys.foldl (fun s k => if k ∈ s then s else s ++ [k]) existing
  let insertedCount := final.length - existing.length
  if insertedCount = docKeys.length then (final, .ok ())
  else
    (final, .error
      { code := 11000, codeName := "DuplicateKey",
        message := "E11000 duplicate key error",
        resultInsertedCount := some insertedCount })

/-! ## The repository listing and the restore entry point -/

/-- A listing entry kept by listBackups: key and last-modified time. -/
structure BackupEntry where
  key : String
  lastModified : Int
  deriving DecidableEq, Repr

/-- Stable insertion into a list sorted by lastModified descending; the
foldr of this insertion models Array.prototype.sort under the comparator
mapping a pair (a, b) to b.lastModified - a.lastModified, which sorts
descending and is stable. -/
def insertByTimeDesc (x : BackupEntry) : List BackupEntry → List BackupEntry
  | [] => [x]
  | y :: ys =>
    if y.lastModified ≤ x.lastModified then x :: y :: ys
    else y :: insertByTimeDesc x ys

/-- Sort a listing by last-modified time descending, stably. -/
def sortByTimeDesc (l : List BackupEntry) : List BackupEntry :=
  l.foldr insertByTimeDesc []

/-- Model of listBackups (restore.ts): keep the listing entries that have a
key and a last-modified time (the truthiness test also drops an
empty-string key), then sort by last-modified time descending. -/
def listBackups (contents : Option (List S3Object)) : List BackupEntry :=
  match contents with
  | none => []
  | some objs =>
    sortByTimeDesc (objs.filterMap (fun o =>
      match o.key, o.lastModified with
      | some k, some t => if k = "" then none else some { key := k, lastModified := t }
      | _, _ => none))

/-- Outcome of one run of the restore entry point: either the process
exited with `No backups found in S3` before touching the database, or the
restore pipeline ran on a chosen archive key. -/
inductive RestoreRun where
  | exitedNoBackups
  | ran (s3Key : String) (result : Except MongoError (List RestoreEvent))
  deriving Repr

/-- Model of restore (restore.ts): with an explicit file name the key is
derived from the optional key path; otherwise the first entry of the
descending listing is chosen, and an empty listing exits the process with
no database action. The chosen archive is then downloaded, decoded and
applied; runPipeline stands for that suffix of the flow. -/
def restore (backupFileName : Option String) (keyPath : Option String)
    (contents : Option (List S3Object))
    (runPipeline : String → Except MongoError (List RestoreEvent)) : RestoreRun :=
  match backupFileName with
  | some f =>
    let s3Key :=
      match keyPath with
      | some p => if p = "" then f else p ++ "/" ++ f
      | none => f
    .ran s3Key (runPipeline s3Key)
  | none =>
    match listBackups contents with
    | [] => .exitedNoBackups
    | b :: _ => .ran b.key (runPipeline b.key)

/-- The database names a restore run reported as being restored (the
databases it actually touched), in order. -/
def restoredDbNames (evs : List RestoreEvent) : List String :=
  evs.filterMap (fun e =>
    match e with
    | .restoringDatabase n => some n
    | _ => none)

/-- The createIndex calls a restore run issued, in order: key and options
of each call. -/
def issuedCreates (evs : List RestoreEvent) :
    List (BsonValue × List (String × BsonValue)) :=
  evs.filterMap (fun e =>
    match e with
    | .indexCreateIssued _ k opts => some (k, opts)
    | _ => none)

/-- Whether an event belongs to the index-recreation phase. -/
def isIndexEvent : RestoreEvent → Bool
  | .indexCreateIssued _ _ _ => true
  | .indexCreated _ => true
  | .indexAlreadyExists _ => true
  | .indexWarning _ _ => true
  | _ => false

/-- Whether an event is a database-level report (restoring or skipping a
database) rather than a per-collection action. -/
def isDbEvent : RestoreEvent → Bool
  | .restoringDatabase _ => true
  | .skippedDatabase _ => true
  | _ => false

/-! ## Theorems: retention cleanup -/

/-- When every DeleteObjectCommand succeeds, the deletion loop deletes
exactly the keyed objects of its input, in order. -/
theorem deleteLoop_all_ok (send : String → Except String Unit)
    (h : ∀ k, send k = Except.ok ()) (objs : List S3Object) :
    deleteLoop send objs
      = { listed := true,
          attemptedDeletes := objs.filterMap S3Object.key,
          deletedKeys := objs.filterMap S3Object.key,
          caughtError := none } := by
  induction objs with
  | nil => rfl
  | cons obj rest ih =>
    cases hk : obj.key with
    | none => simp [deleteLoop, hk, ih, List.filterMap_cons_none]
    | some k => simp [deleteLoop, hk, h k, ih, List.filterMap_cons_some]

/-- A failing DeleteObjectCommand aborts the deletion loop: the keyed
objects before it are deleted, the failing key is the last attempted, and
the error is recorded as caught. -/
theorem deleteLoop_first_failure (send : String → Except String Unit)
    (k e : String) (hk : send k = Except.error e) :
    ∀ pre : List S3Object,
      (∀ o ∈ pre, ∀ k0, o.key = some k0 → send k0 = Except.ok ()) →
      ∀ (obj : S3Object) (post : List S3Object), obj.key = some k →
        deleteLoop send (pre ++ obj :: post)
          = { listed := true,
              attemptedDeletes := pre.filterMap S3Object.key ++ [k],
              deletedKeys := pre.filterMap S3Object.key,
              caughtError := some e } := by
  intro pre
  induction pre with
  | nil =>
    intro _ obj post hobj
    simp [deleteLoop, hobj, hk]
  | cons o rest ih =>
    intro hpre obj post hobj
    have hrest : ∀ o2 ∈ rest, ∀ k0, o2.key = some k0 → send k0 = Except.ok () :=
      fun o2 ho2 => hpre o2 (List.mem_cons_of_mem o ho2)
    cases ho : o.key with
    | none =>
      simp only [List.cons_append, deleteLoop, ho, List.append_eq]
      rw [ih hrest obj post hobj]
      simp [List.filterMap_cons_none, ho]
    | some k0 =>
      have hok := hpre o (List.mem_cons_self o rest) k0 ho
      simp only [List.cons_append, deleteLoop, ho, hok, List.append_eq]
      rw [ih hrest obj post hobj]
      simp [List.filterMap_cons_some, ho]

/-- C6: retention cleanup computes the cutoff now - horizonDays and, when
every delete succeeds, deletes exactly the keyed descriptors under the
backup prefix whose last-modified time is strictly before the cutoff; when
the configured horizon is absent, not a number, zero or negative, cleanup
is a no-op and not an error. -/
theorem c6_retention_cutoff :
    (∀ (r : String) (d now : Int) (contents : List S3Object)
        (send : String → Except String Unit),
        jsParseInt r = some d → 0 < d → (∀ k, send k = Except.ok ()) →
        deleteOldBackups (some r) now (Except.ok (some contents)) send
          = { listed := true,
              attemptedDeletes :=
                (contents.filter (isExpired (now - d * msPerDay))).filterMap S3Object.key,
              deletedKeys :=
                (contents.filter (isExpired (now - d * msPerDay))).filterMap S3Object.key,
              caughtError := none })
    ∧ (∀ now listOutcome send,
        deleteOldBackups none now listOutcome send = cleanupSkipped)
    ∧ (∀ r now listOutcome send, jsParseInt r = none →
        deleteOldBackups (some r) now listOutcome send = cleanupSkipped)
    ∧ (∀ (r : String) (d : Int) now listOutcome send, jsParseInt r = some d → d ≤ 0 →
        deleteOldBackups (some r) now listOutcome send = cleanupSkipped) := by
  refine ⟨?_, ?_, ?_, ?_⟩
  · intro r d now contents send hr hd hsend
    by_cases hre : r = ""
    · subst hre
      have : jsParseInt "" = none := rfl
      rw [this] at hr
      cases hr
    · simp only [deleteOldBackups, if_neg hre, hr, if_neg (not_le.mpr hd)]
      exact deleteLoop_all_ok send hsend _
  · intro now listOutcome send
    rfl
  · intro r now listOutcome send hr
    by_cases hre : r = ""
    · subst hre
      simp [deleteOldBackups]
    · simp [deleteOldBackups, hre, hr]
  · intro r d now listOutcome send hr hd
    by_cases hre : r = ""
    · subst hre
      simp [deleteOldBackups]
    · simp [deleteOldBackups, hre, hr, hd]

/-- Witness for C6 at the retention example of the spec: entries last
modified one, ten and forty days ago under a thirty-day horizon; only the
forty-day-old entry is deleted. -/
theorem c6_witness :
    deleteOldBackups (some "30") 8640000000000
      (Except.ok (some [{ key := some "b1", lastModified := some 8639913600000 },
        { key := some "b10", lastModified := some 8639136000000 },
        { key := some "b40", lastModified := some 8636544000000 }]))
      (fun _ => Except.ok ())
      = { listed := true, attemptedDeletes := ["b40"], deletedKeys := ["b40"],
          caughtError := none } := by
  have h := c6_retention_cutoff.1 "30" 30 8640000000000
    [{ key := some "b1", lastModified := some 8639913600000 },
      { key := some "b10", lastModified := some 8639136000000 },
      { key := some "b40", lastModified := some 8636544000000 }]
    (fun _ => Except.ok ()) (by decide) (by decide) (fun _ => rfl)
  rw [h]
  decide

/-- C3 counterexample: two descriptors are both expired (strictly before the
cutoff), the deletion of the first fails, and the second is never
attempted: the attempted-deletes trace is exactly the first key. -/
theorem c3_counterexample :
    isExpired (172800000 - 1 * msPerDay)
        { key := some "k2", lastModified := some 1000 } = true
    ∧ deleteOldBackups (some "1") 172800000
        (Except.ok (some [{ key := some "k1", lastModified := some 0 },
          { key := some "k2", lastModified := some 1000 }]))
        (fun k => if k = "k1" then Except.error "delete failed" else Except.ok ())
        = { listed := true, attemptedDeletes := ["k1"], deletedKeys := [],
            caughtError := some "delete failed" } := by
  decide

/-- C3 amended: a failing deletion is caught by the single try/catch around
the whole cleanup body, so cleanup deletes the expired descriptors before
the failing one, attempts the failing one, records the error locally and
does not attempt the remaining expired descriptors in that run. -/
theorem c3_cleanup_stops_at_first_failure (r : String) (d now : Int)
    (send : String → Except String Unit) (pre post : List S3Object)
    (obj : S3Object) (k e : String)
    (hr : jsParseInt r = some d) (hd : 0 < d)
    (hpre : ∀ o ∈ pre, isExpired (now - d * msPerDay) o = true)
    (hpreOk : ∀ o ∈ pre, ∀ k0, o.key = some k0 → send k0 = Except.ok ())
    (hobj : obj.key = some k) (hexp : isExpired (now - d * msPerDay) obj = true)
    (hk : send k = Except.error e) :
    deleteOldBackups (some r) now (Except.ok (some (pre ++ obj :: post))) send
      = { listed := true,
          attemptedDeletes := pre.filterMap S3Object.key ++ [k],
          deletedKeys := pre.filterMap S3Object.key,
          caughtError := some e } := by
  by_cases hre : r = ""
  · subst hre
    have : jsParseInt "" = none := rfl
    rw [this] at hr
    cases hr
  · simp only [deleteOldBackups, if_neg hre, hr, if_neg (not_le.mpr hd)]
    rw [List.filter_append, List.filter_eq_self.mpr hpre,
      List.filter_cons_of_pos hexp]
    exact deleteLoop_first_failure send k e hk pre hpreOk obj _ hobj

/-- Witness for the amended C3: with three expired descriptors of which the
middle delete fails, the first is deleted, the second attempted, the third
not attempted. -/
theorem c3_witness :
    deleteOldBackups (some "1") 172800000
      (Except.ok (some ([{ key := some "k0", lastModified := some 500 }] ++
        { key := some "k1", lastModified := some 0 } ::
          [{ key := some "k2", lastModified := some 1000 }])))
      (fun k => if k = "k1" then Except.error "delete failed" else Except.ok ())
      = { listed := true, attemptedDeletes := ["k0", "k1"], deletedKeys := ["k0"],
          caughtError := some "delete failed" } := by
  have h := c3_cleanup_stops_at_first_failure "1" 1 172800000
    (fun k => if k = "k1" then Except.error "delete failed" else Except.ok ())
    [{ key := some "k0", lastModified := some 500 }]
    [{ key := some "k2", lastModified := some 1000 }]
    { key := some "k1", lastModified := some 0 } "k1" "delete failed"
    (by decide) (by decide) (by decide)
    (by
      intro o ho k0 hk0
      have ho2 : o = { key := some "k0", lastModified := some 500 } := by
        simpa using ho
      subst ho2
      injection hk0 with h0
      subst h0
      rfl)
    rfl (by decide) rfl
  exact h

/-- C10: the backup run treats retention cleanup as unable to throw: with
the dump, the upload and the temp-file removal succeeded, the run reports
success for every behaviour of the cleanup collaborators, and a listing
failure inside cleanup is recorded in the local trace (or cleanup was
skipped), never raised. -/
theorem c10_cleanup_never_propagates :
    (∀ (s3Key : String) (retentionEnv : Option String) (now : Int)
        (listOutcome : Except String (Option (List S3Object)))
        (send : String → Except String Unit),
        createMongoDBBackup s3Key (Except.ok ()) (Except.ok ()) (Except.ok ())
            retentionEnv now listOutcome send
          = BackupResult.success s3Key
              (deleteOldBackups retentionEnv now listOutcome send))
    ∧ (∀ (retentionEnv : Option String) (now : Int) (e : String)
        (send : String → Except String Unit),
        deleteOldBackups retentionEnv now (Except.error e) send = cleanupSkipped
          ∨ (deleteOldBackups retentionEnv now (Except.error e) send).caughtError
              = some e) := by
  constructor
  · intro s3Key env now listOutcome send
    rfl
  · intro env now e send
    match env with
    | none => exact Or.inl rfl
    | some r =>
      by_cases hre : r = ""
      · subst hre
        exact Or.inl (by simp [deleteOldBackups])
      · cases hp : jsParseInt r with
        | none => exact Or.inl (by simp [deleteOldBackups, hre, hp])
        | some d =>
          by_cases hd : d ≤ 0
          · exact Or.inl (by simp [deleteOldBackups, hre, hp, hd])
          · exact Or.inr (by simp [deleteOldBackups, hre, hp, hd])

/-! ## Theorems: repository listing and latest-backup selection -/

/-- Membership in the stable descending insertion. -/
theorem mem_insertByTimeDesc {y x : BackupEntry} {l : List BackupEntry} :
    y ∈ insertByTimeDesc x l ↔ y = x ∨ y ∈ l := by
  induction l with
  | nil => simp [insertByTimeDesc]
  | cons z zs ih =>
    simp only [insertByTimeDesc]
    split
    · simp [List.mem_cons]
    · simp only [List.mem_cons, ih]
      tauto

/-- The stable descending insertion preserves descending sortedness. -/
theorem sorted_insertByTimeDesc {x : BackupEntry} {l : List BackupEntry}
    (h : List.Sorted (fun a b => b.lastModified ≤ a.lastModified) l) :
    List.Sorted (fun a b => b.lastModified ≤ a.lastModified) (insertByTimeDesc x l) := by
  induction l with
  | nil => simp [insertByTimeDesc]
  | cons z zs ih =>
    rw [List.sorted_cons] at h
    simp only [insertByTimeDesc]
    split
    · rename_i hle
      refine List.sorted_cons.mpr ⟨?_, List.sorted_cons.mpr h⟩
      intro e he
      rcases List.mem_cons.mp he with rfl | he2
      · exact hle
      · exact le_trans (h.1 e he2) hle
    · rename_i hgt
      push_neg at hgt
      refine List.sorted_cons.mpr ⟨?_, ih h.2⟩
      intro e he
      rcases mem_insertByTimeDesc.mp he with rfl | he2
      · exact le_of_lt hgt
      · exact h.1 e he2

/-- The listing sort is sorted by last-modified time descending. -/
theorem sorted_sortByTimeDesc (l : List BackupEntry) :
    List.Sorted (fun a b => b.lastModified ≤ a.lastModified) (sortByTimeDesc l) := by
  induction l with
  | nil => simp [sortByTimeDesc]
  | cons x xs ih =>
    have : sortByTimeDesc (x :: xs) = insertByTimeDesc x (sortByTimeDesc xs) := rfl
    rw [this]
    exact sorted_insertByTimeDesc ih

/-- listBackups returns a list sorted by last-modified time descending. -/
theorem sorted_listBackups (contents : Option (List S3Object)) :
    List.Sorted (fun a b => b.lastModified ≤ a.lastModified) (listBackups contents) := by
  cases contents with
  | none => simp [listBackups]
  | some objs => exact sorted_sortByTimeDesc _

/-- C4: when restore is invoked without an explicit backup file, the chosen
archive is exactly the head of the descending-sorted repository listing,
which is most recent (no listed entry has a strictly later last-modified
time); when the listing is empty the run exits as no-backups-found, with
the restore pipeline never invoked, so no database mutation occurs. -/
theorem c4_latest_backup_selection :
    (∀ keyPath contents runPipeline, listBackups contents = [] →
        restore none keyPath contents runPipeline = RestoreRun.exitedNoBackups)
    ∧ (∀ keyPath contents runPipeline b rest, listBackups contents = b :: rest →
        restore none keyPath contents runPipeline
            = RestoreRun.ran b.key (runPipeline b.key)
          ∧ ∀ x ∈ listBackups contents, x.lastModified ≤ b.lastModified) := by
  constructor
  · intro keyPath contents runPipeline h
    simp [restore, h]
  · intro keyPath contents runPipeline b rest h
    constructor
    · simp [restore, h]
    · intro x hx
      have hs := sorted_listBackups contents
      rw [h] at hs hx
      rcases List.mem_cons.mp hx with rfl | hx2
      · exact le_refl _
      · exact (List.sorted_cons.mp hs).1 x hx2

/-- Witness for C4: a two-entry repository whose later entry comes second
in the raw listing; the selection picks it. -/
theorem c4_witness :
    restore none none
      (some [{ key := some "mongodb-backup-20240101.gz", lastModified := some 100 },
        { key := some "mongodb-backup-20240301.gz", lastModified := some 200 }])
      (fun _ => Except.ok [])
      = RestoreRun.ran "mongodb-backup-20240301.gz" (Except.ok []) :=
  (c4_latest_backup_selection.2 none
    (some [{ key := some "mongodb-backup-20240101.gz", lastModified := some 100 },
      { key := some "mongodb-backup-20240301.gz", lastModified := some 200 }])
    (fun _ => Except.ok [])
    { key := "mongodb-backup-20240301.gz", lastModified := 200 }
    [{ key := "mongodb-backup-20240101.gz", lastModified := 100 }]
    (by decide)).1

/-! ## Theorems: the archive codec round trip -/

/-- C1, evaluated at the failing input: the serialize/deserialize round
trip of the archive is not the identity. The producer serializes the
snapshot with plain JSON.stringify while the consumer parses with
EJSON.parse, so the identifier and the timestamp value of c1Snapshot come
back as plain strings (c1Degraded) and decoding the encoding of
c1Snapshot does not return c1Snapshot. -/
theorem c1_roundtrip_loses_extended_types :
    decompressBackup (serializeBackup c1Snapshot) = some c1Degraded
    ∧ decompressBackup (serializeBackup c1Snapshot) ≠ some c1Snapshot := by
  constructor
  · rfl
  · intro h
    have h0 : decompressBackup (serializeBackup c1Snapshot) = some c1Degraded := rfl
    have hd : c1Degraded = c1Snapshot := Option.some.inj (h0.symm.trans h)
    have hc := congrArg dateCountBackup hd
    rw [show dateCountBackup c1Degraded = 0 from rfl,
      show dateCountBackup c1Snapshot = 1 from rfl] at hc
    exact absurd hc (by decide)

/-! ## Theorems: the restorer -/

/-- Every event of the index-recreation loop is an index event. -/
theorem mem_restoreIndexes_isIndexEvent (collName : String)
    (createIndex : BsonValue → List (String × BsonValue) → Except MongoError Unit)
    (idxs : List IndexDef) :
    ∀ e ∈ restoreIndexes collName createIndex idxs, isIndexEvent e = true := by
  induction idxs with
  | nil => intro e he; simp [restoreIndexes] at he
  | cons i rest ih =>
    intro e he
    simp only [restoreIndexes] at he
    split at he
    · exact ih e he
    · rcases List.mem_append.mp he with hl | hr
      · cases hci : createIndex (indexCreateArgs i).1 (indexCreateArgs i).2 with
        | ok u =>
          rw [hci] at hl
          rcases List.mem_cons.mp hl with rfl | hl2
          · rfl
          · rcases List.mem_cons.mp hl2 with rfl | hl3
            · rfl
            · cases hl3
        | error err =>
          simp only [hci] at hl
          by_cases hcode : err.code = 85 ∨ err.code = 86
          · rw [if_pos hcode] at hl
            rcases List.mem_cons.mp hl with rfl | hl2
            · rfl
            · rcases List.mem_cons.mp hl2 with rfl | hl3
              · rfl
              · cases hl3
          · rw [if_neg hcode] at hl
            rcases List.mem_cons.mp hl with rfl | hl2
            · rfl
            · rcases List.mem_cons.mp hl2 with rfl | hl3
              · rfl
              · cases hl3
      · exact ih e hr

/-- Every event of the drop step concerns the drop of that collection. -/
theorem mem_dropStep (collName : String) (dropExisting : Bool)
    (dropOutcome : Except MongoError Unit) :
    ∀ e ∈ dropStep collName dropExisting dropOutcome,
      e = RestoreEvent.droppedCollection collName
        ∨ ∃ m, e = RestoreEvent.dropWarning collName m := by
  intro e he
  simp only [dropStep] at he
  split at he
  · split at he
    · rcases List.mem_cons.mp he with rfl | h2
      · exact Or.inl rfl
      · cases h2
    · split at he
      · cases he
      · rcases List.mem_cons.mp he with rfl | h2
        · exact Or.inr ⟨_, rfl⟩
        · cases h2
  · cases he

/-- Every event of a successful insert step is an insert report for that
collection. -/
theorem mem_insertStep_ok (collName : String) (documents : Option (List BsonValue))
    (insertOutcome : Except MongoError Unit) (evs : List RestoreEvent)
    (h : insertStep collName documents insertOutcome = Except.ok evs) :
    ∀ e ∈ evs, (∃ n, e = RestoreEvent.bulkInsertIssued collName n)
      ∨ (∃ n, e = RestoreEvent.insertedAll collName n)
      ∨ ∃ a b, e = RestoreEvent.insertedPartial collName a b := by
  intro e he
  simp only [insertStep] at h
  split at h
  · cases h; cases he
  · split at h
    · split at h
      · cases h
        rcases List.mem_cons.mp he with rfl | h2
        · exact Or.inl ⟨_, rfl⟩
        rcases List.mem_cons.mp h2 with rfl | h3
        · exact Or.inr (Or.inl ⟨_, rfl⟩)
        · cases h3
      · split at h
        · cases h
          rcases List.mem_cons.mp he with rfl | h2
          · exact Or.inl ⟨_, rfl⟩
          rcases List.mem_cons.mp h2 with rfl | h3
          · exact Or.inr (Or.inr ⟨_, _, rfl⟩)
          · cases h3
        · cases h
    · cases h; cases he

/-- Every event of the index step is an index event. -/
theorem mem_indexStep (collName : String) (indexes : Option (List IndexDef))
    (createIndex : BsonValue → List (String × BsonValue) → Except MongoError Unit) :
    ∀ e ∈ indexStep collName indexes createIndex, isIndexEvent e = true := by
  intro e he
  cases indexes with
  | none => simp [indexStep] at he
  | some idxs =>
    simp only [indexStep] at he
    split at he
    · exact mem_restoreIndexes_isIndexEvent _ _ _ e he
    · cases he

/-- C9: for a collection snapshot whose captured document list is absent or
empty, the restorer issues no bulk-insert call, so the per-collection
restore step succeeds whatever the insert collaborator would have
answered. -/
theorem c9_empty_documents_no_insert
    (collName : String) (collData : CollectionSnapshot) (dropExisting : Bool)
    (dropOutcome insertOutcome : Except MongoError Unit)
    (createIndex : BsonValue → List (String × BsonValue) → Except MongoError Unit)
    (h : collData.documents = none ∨ collData.documents = some []) :
    ∃ evs, restoreCollection collName collData dropExisting dropOutcome
        insertOutcome createIndex = Except.ok evs
      ∧ ∀ n c, RestoreEvent.bulkInsertIssued n c ∉ evs := by
  have hins : insertStep collName collData.documents insertOutcome = Except.ok [] := by
    rcases h with h | h <;> simp [insertStep, h]
  have hrc : restoreCollection collName collData dropExisting dropOutcome
      insertOutcome createIndex
      = Except.ok (dropStep collName dropExisting dropOutcome ++ [] ++
          indexStep collName collData.indexes createIndex) := by
    simp [restoreCollection, hins]
  refine ⟨_, hrc, ?_⟩
  intro n c hmem
  rcases List.mem_append.mp hmem with hmem2 | hidx
  · rcases List.mem_append.mp hmem2 with hdrop | hnil
    · rcases mem_dropStep collName dropExisting dropOutcome _ hdrop with h1 | ⟨m, h1⟩ <;>
        cases h1
    · cases hnil
  · have := mem_indexStep collName collData.indexes createIndex _ hidx
    simp [isIndexEvent] at this

/-- Witness for C9: an empty captured document list restores without any
bulk insert even though the insert collaborator would fail. -/
theorem c9_witness :
    ∃ evs, restoreCollection "events" ⟨some [], some []⟩ true (Except.ok ())
        (Except.error ⟨8, "UnknownError", "network error", none⟩)
        (fun _ _ => Except.ok ()) = Except.ok evs
      ∧ ∀ n c, RestoreEvent.bulkInsertIssued n c ∉ evs :=
  c9_empty_documents_no_insert "events" ⟨some [], some []⟩ true (Except.ok ())
    (Except.error ⟨8, "UnknownError", "network error", none⟩)
    (fun _ _ => Except.ok ()) (Or.inr rfl)

/-- Membership after the skip-duplicates insertion fold. -/
theorem mem_insertFold (docKeys : List Int) :
    ∀ (existing : List Int) (k : Int),
      k ∈ docKeys.foldl (fun s x => if x ∈ s then s else s ++ [x]) existing
        ↔ k ∈ existing ∨ k ∈ docKeys := by
  induction docKeys with
  | nil => simp
  | cons a rest ih =>
    intro existing k
    simp only [List.foldl_cons]
    by_cases hc : a ∈ existing
    · rw [if_pos hc, ih]
      constructor
      · rintro (h | h)
        · exact Or.inl h
        · exact Or.inr (List.mem_cons_of_mem a h)
      · rintro (h | h)
        · exact Or.inl h
        · rcases List.mem_cons.mp h with rfl | h2
          · exact Or.inl hc
          · exact Or.inr h2
    · rw [if_neg hc, ih]
      simp only [List.mem_append, List.mem_cons, List.mem_singleton]
      tauto

/-- The collection state after an unordered bulk insert holds exactly the
previously present keys and the batch keys: what is new is inserted, what
collides is skipped, nothing is lost. -/
theorem mem_bulkInsertUnordered (existing docKeys : List Int) (k : Int) :
    k ∈ (bulkInsertUnordered existing docKeys).1 ↔ k ∈ existing ∨ k ∈ docKeys := by
  have hfst : (bulkInsertUnordered existing docKeys).1
      = docKeys.foldl (fun s x => if x ∈ s then s else s ++ [x]) existing := by
    simp only [bulkInsertUnordered]
    split <;> rfl
  rw [hfst]
  exact mem_insertFold docKeys existing k

/-- C2: a duplicate-key conflict in an unordered bulk insert is not fatal.
Against a collection state, the insert keeps every non-colliding document
and skips colliding ones (first conjunct); when at least one document
collides, the driver rejects with code 11000 carrying the count actually
inserted, the restorer absorbs it and reports that count next to the count
of skipped duplicates, distinct from the total attempted (second
conjunct); any per-document failure that is not a duplicate-key conflict
is rethrown and aborts the collection restore (third conjunct). -/
theorem c2_duplicate_key_policy :
    (∀ existing docKeys k, k ∈ (bulkInsertUnordered existing docKeys).1
        ↔ k ∈ existing ∨ k ∈ docKeys)
    ∧ (∀ (collName : String) (collData : CollectionSnapshot) (dropExisting : Bool)
        (dropOutcome : Except MongoError Unit)
        (createIndex : BsonValue → List (String × BsonValue) → Except MongoError Unit)
        (docs : List BsonValue) (existing docKeys : List Int) (e : MongoError),
        collData.documents = some docs → docs ≠ [] → docs.length = docKeys.length →
        (bulkInsertUnordered existing docKeys).2 = Except.error e →
        e.code = 11000
          ∧ e.resultInsertedCount
              = some ((bulkInsertUnordered existing docKeys).1.length - existing.length)
          ∧ ∃ evs, restoreCollection collName collData dropExisting dropOutcome
                (Except.error e) createIndex = Except.ok evs
              ∧ RestoreEvent.insertedPartial collName (e.resultInsertedCount.getD 0)
                  (docs.length - e.resultInsertedCount.getD 0) ∈ evs)
    ∧ (∀ (collName : String) (collData : CollectionSnapshot) (dropExisting : Bool)
        (dropOutcome : Except MongoError Unit)
        (createIndex : BsonValue → List (String × BsonValue) → Except MongoError Unit)
        (docs : List BsonValue) (e : MongoError),
        collData.documents = some docs → docs ≠ [] → e.code ≠ 11000 →
        restoreCollection collName collData dropExisting dropOutcome
          (Except.error e) createIndex = Except.error e) := by
  refine ⟨mem_bulkInsertUnordered, ?_, ?_⟩
  · intro collName collData dropExisting dropOutcome createIndex docs existing docKeys e
      hdocs hne hlen herr
    have hfst : (bulkInsertUnordered existing docKeys).1
        = docKeys.foldl (fun s x => if x ∈ s then s else s ++ [x]) existing := by
      simp only [bulkInsertUnordered]
      split <;> rfl
    have hpos : docs.length > 0 := List.length_pos.mpr hne
    simp only [bulkInsertUnordered] at herr
    split at herr
    · cases herr
    · injection herr with he
      subst he
      refine ⟨rfl, by rw [hfst], ?_⟩
      refine ⟨dropStep collName dropExisting dropOutcome ++
          [RestoreEvent.bulkInsertIssued collName docs.length,
            RestoreEvent.insertedPartial collName
              ((docKeys.foldl (fun s k => if k ∈ s then s else s ++ [k])
                  existing).length - existing.length)
              (docs.length -
                ((docKeys.foldl (fun s k => if k ∈ s then s else s ++ [k])
                    existing).length - existing.length))] ++
          indexStep collName collData.indexes createIndex, ?_, ?_⟩
      · simp [restoreCollection, insertStep, hdocs, hpos]
      · exact List.mem_append_left _ (List.mem_append_right _ (by simp))
  · intro collName collData dropExisting dropOutcome createIndex docs e hdocs hne hcode
    have hpos : docs.length > 0 := List.length_pos.mpr hne
    simp [restoreCollection, insertStep, hdocs, hpos, hcode]

/-- Witness for C2: a two-document batch of which one collides; the
restorer succeeds and reports one inserted, one duplicate skipped. -/
theorem c2_witness :
    ∃ evs, restoreCollection "users" ⟨some [BsonValue.num 5, BsonValue.num 7], none⟩
        false (Except.ok ())
        (Except.error
          { code := 11000, codeName := "DuplicateKey",
            message := "E11000 duplicate key error", resultInsertedCount := some 1 })
        (fun _ _ => Except.ok ()) = Except.ok evs
      ∧ RestoreEvent.insertedPartial "users" 1 1 ∈ evs :=
  (c2_duplicate_key_policy.2.1 "users" ⟨some [BsonValue.num 5, BsonValue.num 7], none⟩
    false (Except.ok ()) (fun _ _ => Except.ok ())
    [BsonValue.num 5, BsonValue.num 7] [5] [5, 7]
    { code := 11000, codeName := "DuplicateKey",
      message := "E11000 duplicate key error", resultInsertedCount := some 1 }
    rfl (by simp) rfl rfl).2.2

/-- issuedCreates distributes over list append. -/
theorem issuedCreates_append (a b : List RestoreEvent) :
    issuedCreates (a ++ b) = issuedCreates a ++ issuedCreates b :=
  List.filterMap_append a b _

/-- The drop step issues no createIndex call. -/
theorem issuedCreates_dropStep (collName : String) (dropExisting : Bool)
    (dropOutcome : Except MongoError Unit) :
    issuedCreates (dropStep collName dropExisting dropOutcome) = [] := by
  simp only [dropStep]
  split
  · cases dropOutcome with
    | ok u => simp [issuedCreates]
    | error e =>
      split
      · rfl
      · simp [issuedCreates]
  · rfl

/-- A successful insert step issues no createIndex call. -/
theorem issuedCreates_insertStep (collName : String)
    (documents : Option (List BsonValue)) (insertOutcome : Except MongoError Unit)
    (evs : List RestoreEvent)
    (h : insertStep collName documents insertOutcome = Except.ok evs) :
    issuedCreates evs = [] := by
  simp only [insertStep] at h
  split at h
  · cases h; rfl
  · split at h
    · split at h
      · cases h; simp [issuedCreates]
      · split at h
        · cases h; simp [issuedCreates]
        · cases h
    · cases h; rfl

/-- The index-recreation loop issues exactly one createIndex call per
captured index other than the primary-key index, with the arguments built
by indexCreateArgs, in capture order. -/
theorem issuedCreates_restoreIndexes (collName : String)
    (createIndex : BsonValue → List (String × BsonValue) → Except MongoError Unit)
    (idxs : List IndexDef) :
    issuedCreates (restoreIndexes collName createIndex idxs)
      = (idxs.filter (fun i => i.name != "_id_")).map indexCreateArgs := by
  induction idxs with
  | nil => rfl
  | cons i rest ih =>
    simp only [restoreIndexes]
    by_cases hid : i.name = "_id_"
    · rw [if_pos hid, ih]
      simp [List.filter_cons, hid]
    · rw [if_neg hid]
      cases hci : createIndex (indexCreateArgs i).1 (indexCreateArgs i).2 with
      | ok u =>
        simp only [hci, issuedCreates_append, ih]
        simp [issuedCreates, List.filter_cons, bne_iff_ne, hid]
      | error err =>
        simp only [hci]
        by_cases hcode : err.code = 85 ∨ err.code = 86
        · rw [if_pos hcode, issuedCreates_append, ih]
          simp [issuedCreates, List.filter_cons, bne_iff_ne, hid]
        · rw [if_neg hcode, issuedCreates_append, ih]
          simp [issuedCreates, List.filter_cons, bne_iff_ne, hid]

/-- C7: the restorer never issues a createIndex call for the implicit
primary-key index _id_ even though it is present in the captured list, and
it issues exactly one createIndex call for every other captured index (with
the version and namespace metadata stripped, the key and the remaining
options reapplied). -/
theorem c7_primary_key_index_skipped :
    (∀ (collName : String)
        (createIndex : BsonValue → List (String × BsonValue) → Except MongoError Unit)
        (idxs : List IndexDef),
        issuedCreates (restoreIndexes collName createIndex idxs)
          = (idxs.filter (fun i => i.name != "_id_")).map indexCreateArgs)
    ∧ (∀ (collName : String) (collData : CollectionSnapshot) (dropExisting : Bool)
        (dropOutcome insertOutcome : Except MongoError Unit)
        (createIndex : BsonValue → List (String × BsonValue) → Except MongoError Unit)
        (idxs : List IndexDef) (evs : List RestoreEvent),
        collData.indexes = some idxs →
        restoreCollection collName collData dropExisting dropOutcome insertOutcome
            createIndex = Except.ok evs →
        issuedCreates evs = (idxs.filter (fun i => i.name != "_id_")).map indexCreateArgs) := by
  constructor
  · exact issuedCreates_restoreIndexes
  · intro collName collData dropExisting dropOutcome insertOutcome createIndex idxs evs
      hidx hok
    simp only [restoreCollection] at hok
    cases hins : insertStep collName collData.documents insertOutcome with
    | error e => rw [hins] at hok; cases hok
    | ok insEvents =>
      rw [hins] at hok
      injection hok with hok
      subst hok
      rw [issuedCreates_append, issuedCreates_append,
        issuedCreates_dropStep, issuedCreates_insertStep collName _ _ _ hins]
      simp only [List.nil_append]
      cases hlen : idxs with
      | nil =>
        subst hlen
        simp [indexStep, hidx, issuedCreates]
      | cons i rest =>
        subst hlen
        have hstep : indexStep collName collData.indexes createIndex
            = restoreIndexes collName createIndex (i :: rest) := by
          simp [indexStep, hidx]
        rw [hstep]
        exact issuedCreates_restoreIndexes collName createIndex (i :: rest)

/-- Witness for C7: a captured list holding the primary-key index and one
secondary index; only the secondary index is issued. -/
theorem c7_witness :
    issuedCreates [RestoreEvent.indexCreateIssued "users" (BsonValue.doc [("x", BsonValue.num 1)])
        [("name", BsonValue.str "x_1")],
      RestoreEvent.indexCreated "x_1"]
      = [(BsonValue.doc [("x", BsonValue.num 1)], [("name", BsonValue.str "x_1")])] :=
  c7_primary_key_index_skipped.2 "users"
    ⟨none, some [⟨"_id_", some 2, none, BsonValue.doc [("_id", BsonValue.num 1)], []⟩,
      ⟨"x_1", some 2, none, BsonValue.doc [("x", BsonValue.num 1)], []⟩]⟩
    false (Except.ok ()) (Except.ok ()) (fun _ _ => Except.ok ())
    [⟨"_id_", some 2, none, BsonValue.doc [("_id", BsonValue.num 1)], []⟩,
      ⟨"x_1", some 2, none, BsonValue.doc [("x", BsonValue.num 1)], []⟩]
    [RestoreEvent.indexCreateIssued "users" (BsonValue.doc [("x", BsonValue.num 1)])
        [("name", BsonValue.str "x_1")],
      RestoreEvent.indexCreated "x_1"]
    rfl rfl

/-- C8: index-creation failures never abort the restore. For every captured
index other than the primary-key index, a creation failure with code 85 or
86 (an index with that name or that specification already exists) is logged
as the index already existing, and any other creation failure is logged as
a warning; the loop emits its events as a total function and the whole
per-collection step still succeeds for every behaviour of the index
collaborator. -/
theorem c8_index_failure_absorbed :
    (∀ (collName : String)
        (createIndex : BsonValue → List (String × BsonValue) → Except MongoError Unit)
        (idxs : List IndexDef) (i : IndexDef), i ∈ idxs → i.name ≠ "_id_" →
        (createIndex (indexCreateArgs i).1 (indexCreateArgs i).2 = Except.ok () →
            RestoreEvent.indexCreated i.name ∈ restoreIndexes collName createIndex idxs)
          ∧ (∀ e, createIndex (indexCreateArgs i).1 (indexCreateArgs i).2 = Except.error e →
              e.code = 85 ∨ e.code = 86 →
              RestoreEvent.indexAlreadyExists i.name ∈ restoreIndexes collName createIndex idxs)
          ∧ (∀ e, createIndex (indexCreateArgs i).1 (indexCreateArgs i).2 = Except.error e →
              ¬(e.code = 85 ∨ e.code = 86) →
              RestoreEvent.indexWarning i.name e.message
                ∈ restoreIndexes collName createIndex idxs))
    ∧ (∀ (collName : String) (collData : CollectionSnapshot) (dropExisting : Bool)
        (dropOutcome insertOutcome : Except MongoError Unit)
        (createIndex : BsonValue → List (String × BsonValue) → Except MongoError Unit),
        collData.documents = none →
        ∃ evs, restoreCollection collName collData dropExisting dropOutcome insertOutcome
          createIndex = Except.ok evs) := by
  constructor
  · intro collName createIndex idxs
    induction idxs with
    | nil => intro i hi; cases hi
    | cons j rest ih =>
      intro i hi hname
      rcases List.mem_cons.mp hi with rfl | hi2
      · refine ⟨?_, ?_, ?_⟩
        · intro hok
          simp only [restoreIndexes, if_neg hname, hok]
          exact List.mem_append_left _ (by simp)
        · intro e herr hcode
          simp only [restoreIndexes, if_neg hname, herr, if_pos hcode]
          exact List.mem_append_left _ (by simp)
        · intro e herr hcode
          simp only [restoreIndexes, if_neg hname, herr, if_neg hcode]
          exact List.mem_append_left _ (by simp)
      · have hrec := ih i hi2 hname
        refine ⟨?_, ?_, ?_⟩
        · intro hok
          have hmem := hrec.1 hok
          by_cases hj : j.name = "_id_"
          · simpa only [restoreIndexes, if_pos hj] using hmem
          · simp only [restoreIndexes, if_neg hj]
            exact List.mem_append_right _ hmem
        · intro e herr hcode
          have hmem := hrec.2.1 e herr hcode
          by_cases hj : j.name = "_id_"
          · simpa only [restoreIndexes, if_pos hj] using hmem
          · simp only [restoreIndexes, if_neg hj]
            exact List.mem_append_right _ hmem
        · intro e herr hcode
          have hmem := hrec.2.2 e herr hcode
          by_cases hj : j.name = "_id_"
          · simpa only [restoreIndexes, if_pos hj] using hmem
          · simp only [restoreIndexes, if_neg hj]
            exact List.mem_append_right _ hmem
  · intro collName collData dropExisting dropOutcome insertOutcome createIndex h
    have hins : insertStep collName collData.documents insertOutcome = Except.ok [] := by
      simp [insertStep, h]
    exact ⟨dropStep collName dropExisting dropOutcome ++ [] ++
      indexStep collName collData.indexes createIndex, by simp [restoreCollection, hins]⟩

/-- Witness for C8: the single captured secondary index fails creation with
code 85 and is reported as already existing. -/
theorem c8_witness :
    RestoreEvent.indexAlreadyExists "y_1"
      ∈ restoreIndexes "users"
        (fun _ _ => Except.error ⟨85, "IndexOptionsConflict", "already exists", none⟩)
        [⟨"y_1", some 2, none, BsonValue.doc [("y", BsonValue.num 1)], []⟩] :=
  ((c8_index_failure_absorbed.1 "users"
    (fun _ _ => Except.error ⟨85, "IndexOptionsConflict", "already exists", none⟩)
    [⟨"y_1", some 2, none, BsonValue.doc [("y", BsonValue.num 1)], []⟩]
    ⟨"y_1", some 2, none, BsonValue.doc [("y", BsonValue.num 1)], []⟩
    (List.mem_singleton.mpr rfl) (by decide)).2.1
    ⟨85, "IndexOptionsConflict", "already exists", none⟩ rfl (Or.inl rfl))

/-- An index event is not a database-level report. -/
theorem isDbEvent_false_of_isIndexEvent (e : RestoreEvent)
    (h : isIndexEvent e = true) : isDbEvent e = false := by
  cases e <;> simp_all [isIndexEvent, isDbEvent]

/-- No event of a successful per-collection restore step is a
database-level report. -/
theorem no_dbEvent_restoreCollection (collName : String)
    (collData : CollectionSnapshot) (dropExisting : Bool)
    (dropOutcome insertOutcome : Except MongoError Unit)
    (createIndex : BsonValue → List (String × BsonValue) → Except MongoError Unit)
    (evs : List RestoreEvent)
    (h : restoreCollection collName collData dropExisting dropOutcome insertOutcome
      createIndex = Except.ok evs) :
    ∀ e ∈ evs, isDbEvent e = false := by
  intro e he
  simp only [restoreCollection] at h
  cases hins : insertStep collName collData.documents insertOutcome with
  | error err => rw [hins] at h; cases h
  | ok insEvents =>
    rw [hins] at h
    injection h with h
    subst h
    rcases List.mem_append.mp he with h2 | hidx
    · rcases List.mem_append.mp h2 with hdrop | hinsm
      · rcases mem_dropStep collName dropExisting dropOutcome e hdrop with h3 | ⟨m, h3⟩ <;>
          (subst h3; rfl)
      · rcases mem_insertStep_ok collName collData.documents insertOutcome insEvents hins
            e hinsm with ⟨n, h3⟩ | ⟨n, h3⟩ | ⟨a, b, h3⟩ <;> (subst h3; rfl)
    · exact isDbEvent_false_of_isIndexEvent e
        (mem_indexStep collName collData.indexes createIndex e hidx)

/-- No event of a successful collection loop is a database-level report. -/
theorem no_dbEvent_restoreCollections (dropExisting : Bool)
    (dropOutcome insertOutcome : String → Except MongoError Unit)
    (createIndex : String → BsonValue → List (String × BsonValue) → Except MongoError Unit) :
    ∀ (colls : List (String × CollectionSnapshot)) (evs : List RestoreEvent),
      restoreCollections dropExisting dropOutcome insertOutcome createIndex colls
        = Except.ok evs →
      ∀ e ∈ evs, isDbEvent e = false := by
  intro colls
  induction colls with
  | nil =>
    intro evs h e he
    injection h with h
    subst h
    cases he
  | cons p rest ih =>
    intro evs h e he
    obtain ⟨collName, collData⟩ := p
    simp only [restoreCollections] at h
    cases hc : restoreCollection collName collData dropExisting (dropOutcome collName)
        (insertOutcome collName) (createIndex collName) with
    | error err => rw [hc] at h; cases h
    | ok evs1 =>
      rw [hc] at h
      cases hr : restoreCollections dropExisting dropOutcome insertOutcome createIndex rest with
      | error err => rw [hr] at h; cases h
      | ok evs2 =>
        rw [hr] at h
        injection h with h
        subst h
        rcases List.mem_append.mp he with h1 | h2
        · exact no_dbEvent_restoreCollection collName collData dropExisting _ _ _ evs1 hc e h1
        · exact ih evs2 hr e h2

/-- Events with no database-level report contribute no restored-database
name. -/
theorem restoredDbNames_eq_nil (evs : List RestoreEvent)
    (h : ∀ e ∈ evs, isDbEvent e = false) : restoredDbNames evs = [] := by
  induction evs with
  | nil => rfl
  | cons e rest ih =>
    have he := h e (List.mem_cons_self e rest)
    have hrest := ih (fun x hx => h x (List.mem_cons_of_mem e hx))
    cases e <;> simp_all [restoredDbNames, isDbEvent]

/-- The database loop of the restorer reports as restored exactly the
snapshot databases selected by the scope rule: all of them when the
connection names no database, and exactly the equally-named ones when it
does. -/
theorem restoredDbNames_restoreDatabases (dropExisting : Bool)
    (specificDatabase : String)
    (dropOutcome insertOutcome : String → String → Except MongoError Unit)
    (createIndex : String → String → BsonValue → List (String × BsonValue) →
      Except MongoError Unit) :
    ∀ (dbs : List (String × DatabaseSnapshot)) (evs : List RestoreEvent),
      restoreDatabases dropExisting specificDatabase dropOutcome insertOutcome createIndex
          dbs = Except.ok evs →
      restoredDbNames evs = (dbs.map Prod.fst).filter
        (fun n => specificDatabase == "" || n == specificDatabase) := by
  intro dbs
  induction dbs with
  | nil =>
    intro evs h
    injection h with h
    subst h
    rfl
  | cons p rest ih =>
    intro evs h
    obtain ⟨dbName, dbData⟩ := p
    simp only [restoreDatabases] at h
    by_cases hcond : specificDatabase ≠ "" ∧ dbName ≠ specificDatabase
    · rw [if_pos hcond] at h
      cases hr : restoreDatabases dropExisting specificDatabase dropOutcome insertOutcome
          createIndex rest with
      | error err => rw [hr] at h; cases h
      | ok evs2 =>
        rw [hr] at h
        injection h with h
        subst h
        have hflt : ((dbName :: rest.map Prod.fst).filter
            (fun n => specificDatabase == "" || n == specificDatabase))
            = (rest.map Prod.fst).filter
              (fun n => specificDatabase == "" || n == specificDatabase) := by
          rw [List.filter_cons]
          simp [beq_eq_false_iff_ne.mpr hcond.1, beq_eq_false_iff_ne.mpr hcond.2]
        rw [List.map_cons, hflt, ← ih evs2 hr]
        simp [restoredDbNames]
    · rw [if_neg hcond] at h
      cases hc : restoreCollections dropExisting (dropOutcome dbName) (insertOutcome dbName)
          (createIndex dbName) dbData.collections with
      | error err => rw [hc] at h; cases h
      | ok evs1 =>
        rw [hc] at h
        cases hr : restoreDatabases dropExisting specificDatabase dropOutcome insertOutcome
            createIndex rest with
        | error err => rw [hr] at h; cases h
        | ok evs2 =>
          rw [hr] at h
          injection h with h
          subst h
          have hsel : (specificDatabase == "" || dbName == specificDatabase) = true := by
            rcases not_and_or.mp hcond with h1 | h2
            · simp [beq_iff_eq, not_not.mp h1]
            · simp [beq_iff_eq, not_not.mp h2]
          have hflt : ((dbName :: rest.map Prod.fst).filter
              (fun n => specificDatabase == "" || n == specificDatabase))
              = dbName :: (rest.map Prod.fst).filter
                (fun n => specificDatabase == "" || n == specificDatabase) := by
            rw [List.filter_cons]
            simp [hsel]
          rw [List.map_cons, hflt]
          have h1 : restoredDbNames (RestoreEvent.restoringDatabase dbName :: evs1 ++ evs2)
              = dbName :: restoredDbNames (evs1 ++ evs2) := by
            simp [restoredDbNames]
          rw [h1]
          have h2 : restoredDbNames (evs1 ++ evs2)
              = restoredDbNames evs1 ++ restoredDbNames evs2 :=
            List.filterMap_append evs1 evs2 _
          rw [h2, restoredDbNames_eq_nil evs1
            (no_dbEvent_restoreCollections dropExisting (dropOutcome dbName)
              (insertOutcome dbName) (createIndex dbName) dbData.collections evs1 hc),
            ih evs2 hr]
          rfl

/-- C5: the producer and the restorer apply the same scope rule. When the
connection URI names a database, the producer backs up exactly that
database and the restorer touches exactly the snapshot databases with that
name; when it does not, the producer backs up every listed database except
the system databases admin, local and config, and the restorer touches
every snapshot database. -/
theorem c5_scope_rule :
    (∀ (specificDatabase : String) (listed : List String), specificDatabase ≠ "" →
        databasesToBackup specificDatabase listed = [specificDatabase])
    ∧ (∀ (listed : List String) (n : String),
        n ∈ databasesToBackup "" listed
          ↔ n ∈ listed ∧ ¬(n = "admin" ∨ n = "local" ∨ n = "config"))
    ∧ (∀ (backup : BackupData) (dropExisting : Bool) (specificDatabase : String)
        (dropOutcome insertOutcome : String → String → Except MongoError Unit)
        (createIndex : String → String → BsonValue → List (String × BsonValue) →
          Except MongoError Unit) (evs : List RestoreEvent),
        restoreToMongoDB backup dropExisting specificDatabase dropOutcome insertOutcome
            createIndex = Except.ok evs →
        restoredDbNames evs = (backup.databases.map Prod.fst).filter
          (fun n => specificDatabase == "" || n == specificDatabase)) := by
  refine ⟨?_, ?_, ?_⟩
  · intro specificDatabase listed h
    simp [databasesToBackup, h]
  · intro listed n
    simp only [databasesToBackup, if_neg (by simp : ¬("" : String) ≠ "")]
    rw [List.mem_filter]
    simp
  · intro backup dropExisting specificDatabase dropOutcome insertOutcome createIndex evs h
    exact restoredDbNames_restoreDatabases dropExisting specificDatabase dropOutcome
      insertOutcome createIndex backup.databases evs h

/-- Witness for C5: a two-database snapshot restored over a connection that
names the first database; only that database is restored, the other is
skipped. -/
theorem c5_witness :
    restoredDbNames [RestoreEvent.restoringDatabase "app",
        RestoreEvent.skippedDatabase "other"] = ["app"] :=
  c5_scope_rule.2.2
    { databases := [("app", { collections := [] }), ("other", { collections := [] })],
      timestamp := "2024-01-01T00:00:00.000Z" }
    false "app" (fun _ _ => Except.ok ()) (fun _ _ => Except.ok ())
    (fun _ _ _ _ => Except.ok ())
    [RestoreEvent.restoringDatabase "app", RestoreEvent.skippedDatabase "other"] rfl

end MongoBackup
